import Mathlib

/-!
Verification of the place-extract lambda (a serverless handler that reads a
source record from object storage, calls a generative-language model through
`PlaceExtractor`, logs metrics, and writes the extraction output back).

The development shallowly embeds the two Python modules:

* `src/src/place_extractor.py` : `PlaceExtractor._construct_user_content`,
  `PlaceExtractor.extract` (the model response is an oracle input holding the
  `parsed` payload and the optional usage metadata);
* `src/lambda_function.py` : `get_api_key` (the module-level credential cache),
  `get_source_data_from_s3` / `save_result_to_s3`, and `lambda_handler`
  (external effects are recorded in an operation trace).

Python JSON values are embedded as the inductive `Json`.  `dumps` models
`json.dumps(..., ensure_ascii=False, indent=2)` exactly as CPython prints it
(named escapes and \u00XX escapes for control characters, everything at or
above U+0020 except quote and backslash passed through verbatim, two-space
indentation).  `loads` models `json.loads` by recursive descent on the
character list (restricted to the integer number grammar, which covers every
value this program serializes).  Token counts are modeled as natural numbers
cast into `Json.num : Int`, since the model backend reports token counts as
non-negative integers.
-/

/-- A Python/JSON value.  Objects are association lists in insertion order,
matching `dict` iteration order used by `json.dumps`. -/
inductive Json where
  | null : Json
  | bool (b : Bool) : Json
  | num (i : Int) : Json
  | str (s : String) : Json
  | arr (xs : List Json) : Json
  | obj (xs : List (String × Json)) : Json

mutual

/-- Node count of a `Json` value, used to bound the parser fuel. -/
def jsize : Json → Nat
  | .null => 1
  | .bool _ => 1
  | .arr xs => 2 + jsizeList xs
  | .num _ => 1
  | .str _ => 1
  | .obj xs => 2 + jsizeMems xs

def jsizeList : List Json → Nat
  | [] => 0
  | x :: xs => 1 + jsize x + jsizeList xs

def jsizeMems : List (String × Json) → Nat
  | [] => 0
  | kv :: xs => 1 + jsize kv.2 + jsizeMems xs

end

/-- Decimal digit character (used by the model of CPython's int printing). -/
def decDigit : Nat → Char
  | 0 => '0'
  | 1 => '1'
  | 2 => '2'
  | 3 => '3'
  | 4 => '4'
  | 5 => '5'
  | 6 => '6'
  | 7 => '7'
  | 8 => '8'
  | _ => '9'

/-- Decimal digits of a natural number, most significant first. -/
def natDigits (n : Nat) : List Char :=
  if _h : n < 10 then [decDigit n]
  else natDigits (n / 10) ++ [decDigit (n % 10)]
decreasing_by exact Nat.div_lt_self (by omega) (by omega)

/-- Characters of a Python int as printed by `json.dumps`. -/
def intChars (i : Int) : List Char :=
  if i < 0 then '-' :: natDigits i.natAbs else natDigits i.toNat

/-- Lowercase hexadecimal digit character (CPython emits lowercase \uXXXX). -/
def hexLowerDigit : Nat → Char
  | 0 => '0'
  | 1 => '1'
  | 2 => '2'
  | 3 => '3'
  | 4 => '4'
  | 5 => '5'
  | 6 => '6'
  | 7 => '7'
  | 8 => '8'
  | 9 => '9'
  | 10 => 'a'
  | 11 => 'b'
  | 12 => 'c'
  | 13 => 'd'
  | 14 => 'e'
  | _ => 'f'

/-- Escape of one character inside a JSON string, as CPython's
`json.encoder` does with `ensure_ascii=False`: only `"` `\` and the control
range U+0000..U+001F are escaped; everything else is passed through. -/
def escChar (c : Char) : List Char :=
  if c = '"' then ['\\', '"']
  else if c = '\\' then ['\\', '\\']
  else if c = '\x08' then ['\\', 'b']
  else if c = '\x09' then ['\\', 't']
  else if c = '\x0a' then ['\\', 'n']
  else if c = '\x0c' then ['\\', 'f']
  else if c = '\x0d' then ['\\', 'r']
  else if c.toNat < 32 then
    '\\' :: 'u' :: '0' :: '0' :: hexLowerDigit (c.toNat / 16) :: [hexLowerDigit (c.toNat % 16)]
  else [c]

def escList : List Char → List Char
  | [] => []
  | c :: cs => escChar c ++ escList cs

/-- A JSON string literal: quote, escaped body, quote. -/
def strChars (s : String) : List Char :=
  '"' :: (escList s.data ++ ['"'])

/-- Newline followed by the two-space indentation of `indent=2` at `lvl`. -/
def nlChars (lvl : Nat) : List Char :=
  '\n' :: List.replicate (2 * lvl) ' '

mutual

/-- Characters printed by `json.dumps(v, ensure_ascii=False, indent=2)` for a
value nested at indentation level `lvl`. -/
def printVal (lvl : Nat) : Json → List Char
  | .null => "null".data
  | .bool true => "true".data
  | .bool false => "false".data
  | .num i => intChars i
  | .str s => strChars s
  | .arr [] => ['[', ']']
  | .arr (x :: xs) =>
      '[' :: (nlChars (lvl + 1) ++ printVal (lvl + 1) x ++ printArrTail (lvl + 1) xs
        ++ nlChars lvl ++ [']'])
  | .obj [] => ['\x7b', '\x7d']
  | .obj (kv :: xs) =>
      '\x7b' :: (nlChars (lvl + 1) ++ strChars kv.1 ++ ':' :: ' ' :: printVal (lvl + 1) kv.2
        ++ printObjTail (lvl + 1) xs ++ nlChars lvl ++ ['\x7d'])

/-- Remaining array items, each preceded by the `",\n" + indent` separator. -/
def printArrTail (lvl : Nat) : List Json → List Char
  | [] => []
  | x :: xs => ',' :: (nlChars lvl ++ printVal lvl x ++ printArrTail lvl xs)

/-- Remaining object members, each preceded by the separator, with the
`": "` key separator. -/
def printObjTail (lvl : Nat) : List (String × Json) → List Char
  | [] => []
  | kv :: xs =>
      ',' :: (nlChars lvl ++ strChars kv.1 ++ ':' :: ' ' :: printVal lvl kv.2
        ++ printObjTail lvl xs)

end

/-- Model of `json.dumps(v, ensure_ascii=False, indent=2)`, the serialization
used both by `save_result_to_s3` and by `_construct_user_content`. -/
def dumps (j : Json) : String :=
  String.mk (printVal 0 j)

/-- JSON insignificant whitespace. -/
def isWsChar (c : Char) : Bool :=
  c = ' ' || c = '\n' || c = '\t' || c = '\r'

def skipWs : List Char → List Char
  | [] => []
  | c :: cs => if isWsChar c then skipWs cs else c :: cs

/-- Value of a hexadecimal digit (json accepts both cases in \uXXXX). -/
def hexVal (c : Char) : Option Nat :=
  if 48 ≤ c.toNat ∧ c.toNat ≤ 57 then some (c.toNat - 48)
  else if 97 ≤ c.toNat ∧ c.toNat ≤ 102 then some (c.toNat - 87)
  else if 65 ≤ c.toNat ∧ c.toNat ≤ 70 then some (c.toNat - 55)
  else none

/-- Body of a JSON string literal after the opening quote: returns the decoded
characters and the input following the closing quote.  Unescaped control
characters are rejected, as `json.loads` does in strict mode. -/
def parseStrChars : List Char → Option (List Char × List Char)
  | [] => none
  | c :: cs =>
    if c = '"' then some ([], cs)
    else if c = '\\' then
      match cs with
      | [] => none
      | e :: cs' =>
        if e = '"' then (parseStrChars cs').map (fun p => ('"' :: p.1, p.2))
        else if e = '\\' then (parseStrChars cs').map (fun p => ('\\' :: p.1, p.2))
        else if e = '/' then (parseStrChars cs').map (fun p => ('/' :: p.1, p.2))
        else if e = 'b' then (parseStrChars cs').map (fun p => ('\x08' :: p.1, p.2))
        else if e = 't' then (parseStrChars cs').map (fun p => ('\x09' :: p.1, p.2))
        else if e = 'n' then (parseStrChars cs').map (fun p => ('\x0a' :: p.1, p.2))
        else if e = 'f' then (parseStrChars cs').map (fun p => ('\x0c' :: p.1, p.2))
        else if e = 'r' then (parseStrChars cs').map (fun p => ('\x0d' :: p.1, p.2))
        else if e = 'u' then
          match cs' with
          | h1 :: h2 :: h3 :: h4 :: cs'' =>
            match hexVal h1, hexVal h2, hexVal h3, hexVal h4 with
            | some a, some b, some c2, some d =>
              (parseStrChars cs'').map
                (fun p => (Char.ofNat (((a * 16 + b) * 16 + c2) * 16 + d) :: p.1, p.2))
            | _, _, _, _ => none
          | _ => none
        else none
    else if c.toNat < 32 then none
    else (parseStrChars cs).map (fun p => (c :: p.1, p.2))

def isDigitChar (c : Char) : Bool :=
  48 ≤ c.toNat && c.toNat ≤ 57

/-- Consume a run of decimal digits, folding them onto `acc`. -/
def digitsToNat (acc : Nat) : List Char → Nat × List Char
  | [] => (acc, [])
  | c :: cs =>
    if isDigitChar c then digitsToNat (acc * 10 + (c.toNat - 48)) cs
    else (acc, c :: cs)

def parseNatChars : List Char → Option (Nat × List Char)
  | [] => none
  | c :: cs =>
    if isDigitChar c then some (digitsToNat 0 (c :: cs)) else none

/-- Integer literal (the number grammar restricted to ints, which is all this
program ever writes). -/
def parseIntChars : List Char → Option (Int × List Char)
  | [] => none
  | c :: cs =>
    if c = '-' then (parseNatChars cs).map (fun p => (-(p.1 : Int), p.2))
    else (parseNatChars (c :: cs)).map (fun p => ((p.1 : Int), p.2))

mutual

/-- Fuel-indexed recursive-descent value parser modeling `json.loads`. -/
def parseValue : Nat → List Char → Option (Json × List Char)
  | 0, _ => none
  | Nat.succ fuel, cs =>
    match skipWs cs with
    | [] => none
    | c :: rest =>
      if c = '"' then (parseStrChars rest).map (fun p => (Json.str (String.mk p.1), p.2))
      else if c = '[' then
        match skipWs rest with
        | [] => none
        | c2 :: rest2 =>
          if c2 = ']' then some (Json.arr [], rest2)
          else (parseElems fuel (c2 :: rest2)).map (fun p => (Json.arr p.1, p.2))
      else if c = '\x7b' then
        match skipWs rest with
        | [] => none
        | c2 :: rest2 =>
          if c2 = '\x7d' then some (Json.obj [], rest2)
          else (parseMems fuel (c2 :: rest2)).map (fun p => (Json.obj p.1, p.2))
      else if c = 'n' then
        match rest with
        | c1 :: c2 :: c3 :: r =>
          if c1 = 'u' ∧ c2 = 'l' ∧ c3 = 'l' then some (Json.null, r) else none
        | _ => none
      else if c = 't' then
        match rest with
        | c1 :: c2 :: c3 :: r =>
          if c1 = 'r' ∧ c2 = 'u' ∧ c3 = 'e' then some (Json.bool true, r) else none
        | _ => none
      else if c = 'f' then
        match rest with
        | c1 :: c2 :: c3 :: c4 :: r =>
          if c1 = 'a' ∧ c2 = 'l' ∧ c3 = 's' ∧ c4 = 'e' then some (Json.bool false, r) else none
        | _ => none
      else (parseIntChars (c :: rest)).map (fun p => (Json.num p.1, p.2))

/-- One-or-more comma-separated array elements followed by `]`. -/
def parseElems : Nat → List Char → Option (List Json × List Char)
  | 0, _ => none
  | Nat.succ fuel, cs =>
    match parseValue fuel cs with
    | none => none
    | some (v, r) =>
      match skipWs r with
      | c :: r' =>
        if c = ',' then (parseElems fuel r').map (fun p => (v :: p.1, p.2))
        else if c = ']' then some ([v], r')
        else none
      | [] => none

/-- One-or-more `"key": value` members followed by the closing brace. -/
def parseMems : Nat → List Char → Option (List (String × Json) × List Char)
  | 0, _ => none
  | Nat.succ fuel, cs =>
    match skipWs cs with
    | c0 :: r0 =>
      if c0 = '"' then
        match parseStrChars r0 with
        | none => none
        | some (kcs, r1) =>
          match skipWs r1 with
          | c1 :: r2 =>
            if c1 = ':' then
              match parseValue fuel r2 with
              | none => none
              | some (v, r3) =>
                match skipWs r3 with
                | c2 :: r4 =>
                  if c2 = ',' then
                    (parseMems fuel r4).map (fun p => ((String.mk kcs, v) :: p.1, p.2))
                  else if c2 = '\x7d' then some ([(String.mk kcs, v)], r4)
                  else none
                | [] => none
            else none
          | [] => none
      else none
    | [] => none

end

/-- Model of `json.loads` as used by `get_source_data_from_s3`: parse one value
and require only trailing whitespace after it. -/
def loads (s : String) : Option Json :=
  match parseValue (s.data.length + 1) s.data with
  | some (j, rest) => if skipWs rest = [] then some j else none
  | none => none

/-! ## Python dict semantics -/

/-- Python truthiness of a JSON value (empty string, empty containers, zero,
`None` and `False` are falsy). -/
def pyTruthy : Json → Bool
  | .null => false
  | .bool b => b
  | .num i => i != 0
  | .str s => s != ""
  | .arr xs => !xs.isEmpty
  | .obj xs => !xs.isEmpty

/-- `d.get(k, dflt)`: succeeds only on a dict (`.get` on anything else raises
`AttributeError`), returning the binding or the default. -/
def pyGetD (j : Json) (k : String) (dflt : Json) : Except Unit Json :=
  match j with
  | .obj xs => .ok ((xs.lookup k).getD dflt)
  | _ => .error ()

/-- `d[k]`: raises `KeyError` when the key is missing and `TypeError` on a
non-dict value. -/
def pySubscript (j : Json) (k : String) : Except Unit Json :=
  match j with
  | .obj xs =>
    match xs.lookup k with
    | some v => .ok v
    | none => .error ()
  | _ => .error ()

/-- `len(x)`: defined for sequences and mappings, raises on other values. -/
def pyLen : Json → Except Unit Nat
  | .arr xs => .ok xs.length
  | .str s => .ok s.length
  | .obj xs => .ok xs.length
  | _ => .error ()

/-! ## `src/src/place_extractor.py` -/

structure PlaceItem where
  place_name : String
  search_query : String
deriving DecidableEq

structure AnalysisResult where
  summary : String
  places : List PlaceItem
deriving DecidableEq

/-- The usage metadata of a model response; the backend reports non-negative
token counts. -/
structure UsageMetadata where
  prompt_token_count : Nat
  candidates_token_count : Nat
deriving DecidableEq

/-- The model response as `extract` consumes it: the schema-parsed payload (or
`None` when the response was blocked, empty, or non-conformant) and the
optional usage metadata. -/
structure ModelResponse where
  parsed : Option AnalysisResult
  usage_metadata : Option UsageMetadata

/-- `PlaceItem.model_dump()`. -/
def placeToJson (p : PlaceItem) : Json :=
  .obj [("place_name", .str p.place_name), ("search_query", .str p.search_query)]

/-- `AnalysisResult.model_dump()` (pydantic preserves field order). -/
def analysisToJson (r : AnalysisResult) : Json :=
  .obj [("summary", .str r.summary), ("places", .arr (r.places.map placeToJson))]

/-- `PlaceExtractor._construct_user_content`: project the four fields with
`dict.get` defaults and Python `or` fallbacks, then
`json.dumps(..., ensure_ascii=False, indent=2)`. -/
def constructUserContent (data : Json) : Except Unit String := do
  let videoInfo ← pyGetD data "video_info" (.obj [])
  let title ← pyGetD videoInfo "title" (.str "")
  let descr ← pyGetD videoInfo "description" (.str "")
  let pc ← pyGetD data "pinned_comment" .null
  let tr ← pyGetD data "processed_transcript" .null
  pure (dumps (.obj [
    ("title", title),
    ("description", descr),
    ("pinned_comment", if pyTruthy pc then pc else .str ""),
    ("transcript", if pyTruthy tr then tr else .str "(자막 없음)")]))

/-- The tail of `PlaceExtractor.extract` once a transport-level response is in
hand: either wrap the parsed payload with the usage counters (each count
defaulting to 0 when `usage_metadata` is absent), or return the degraded
fallback record. -/
def extractOutput (resp : ModelResponse) : Json :=
  match resp.parsed with
  | some r =>
    let counts : Nat × Nat :=
      match resp.usage_metadata with
      | some u => (u.prompt_token_count, u.candidates_token_count)
      | none => (0, 0)
    .obj [("result", analysisToJson r),
          ("usage", .obj [("input_tokens", .num (counts.1 : Int)),
                          ("output_tokens", .num (counts.2 : Int))])]
  | none => .obj [("summary", .str "분석 결과 없음 (안전 필터 또는 내용 없음)"), ("places", .arr [])]

inductive ExtractStepErr where
  | payloadErr : ExtractStepErr
  | transportErr : ExtractStepErr
deriving DecidableEq

/-- Operations against external services, in the order they are issued. -/
inductive Op where
  | ssmFetch : Op
  | s3Get (bucket key expectedOwner : String) : Op
  | modelCall : Op
  | s3Put (bucket key expectedOwner body contentType : String) : Op
deriving DecidableEq

/-- `PlaceExtractor.extract`: build the user content (an `AttributeError`
there propagates), issue the model call (transport failures propagate
unhandled), and normalize the response.  The returned list records whether the
model endpoint was actually called. -/
def extract (sourceData : Json) (transport : Except Unit ModelResponse) :
    Except ExtractStepErr Json × List Op :=
  match constructUserContent sourceData with
  | .error _ => (.error .payloadErr, [])
  | .ok _ =>
    match transport with
    | .error _ => (.error .transportErr, [Op.modelCall])
    | .ok resp => (.ok (extractOutput resp), [Op.modelCall])

/-! ## Spec-side shape predicates (from the data model of the spec, section 3) -/

def isPlaceItemJson : Json → Bool
  | .obj [("place_name", .str _), ("search_query", .str _)] => true
  | _ => false

def isAnalysisResultJson : Json → Bool
  | .obj [("summary", .str _), ("places", .arr ps)] => ps.all isPlaceItemJson
  | _ => false

/-- The ExtractionOutput data model of the spec: either a `result` conforming
to AnalysisResult together with non-negative integer usage counts, or exactly
the degraded fallback record (placeholder summary, empty places, no `usage`
key and no `result` wrapper). -/
def isExtractionOutputJson : Json → Bool
  | .obj [("result", r), ("usage", .obj [("input_tokens", .num i), ("output_tokens", .num o)])] =>
      isAnalysisResultJson r && decide (0 ≤ i) && decide (0 ≤ o)
  | .obj [("summary", .str s), ("places", .arr l)] =>
      (s == "분석 결과 없음 (안전 필터 또는 내용 없음)") && l.isEmpty
  | _ => false

/-- The SourceRecord data model of the spec: `video_info` with string `title`
and `description`, and string-or-null `pinned_comment` and
`processed_transcript`. -/
def isStrOrNull : Json → Bool
  | .null => true
  | .str _ => true
  | _ => false

def validSourceRecord (j : Json) : Bool :=
  match j with
  | .obj xs =>
    (match xs.lookup "video_info" with
     | some (.obj vs) =>
       (match vs.lookup "title" with
        | some (.str _) => true
        | _ => false)
       && (match vs.lookup "description" with
           | some (.str _) => true
           | _ => false)
     | _ => false)
    && (match xs.lookup "pinned_comment" with
        | some v => isStrOrNull v
        | none => false)
    && (match xs.lookup "processed_transcript" with
        | some v => isStrOrNull v
        | none => false)
  | _ => false

/-! ## `src/lambda_function.py` -/

inductive HandlerError where
  | configError (videoId : Option String) (bucket : Option String) : HandlerError
  | credentialError : HandlerError
  | storageReadError : HandlerError
  | sourceParseError : HandlerError
  | payloadError : HandlerError
  | modelError : HandlerError
  | metricsError : HandlerError
  | storageWriteError : HandlerError
deriving DecidableEq

structure HandlerResult where
  statusCode : Nat
  video_id : String
  s3_key : String
deriving DecidableEq

/-- Python truthiness of `CACHED_API_KEY` / an optional string. -/
def pyTruthyOptStr : Option String → Bool
  | some s => s != ""
  | none => false

/-- One call to `get_api_key`: return the cached value when it is truthy,
otherwise fetch from the parameter store (recording the external call),
populate the cache on success and re-raise on failure. -/
def getApiKeyStep (cache : Option String) (ssm : Except Unit String) :
    Except Unit String × Option String × List Op :=
  if pyTruthyOptStr cache then (.ok (cache.getD ""), cache, [])
  else
    match ssm with
    | .ok v => (.ok v, some v, [Op.ssmFetch])
    | .error e => (.error e, cache, [Op.ssmFetch])

/-- `n` successive calls to `get_api_key` within one process: `oracle i` is
the result of the `i`-th external parameter-store fetch.  Returns the per-call
results, the final cache, and the total number of external fetches. -/
def runGetApiKey (oracle : Nat → Except Unit String) :
    Option String → Nat → Nat → List (Except Unit String) × Option String × Nat
  | cache, fetches, 0 => ([], cache, fetches)
  | cache, fetches, Nat.succ n =>
    let step := getApiKeyStep cache (oracle fetches)
    let rest := runGetApiKey oracle step.2.1 (fetches + step.2.2.length) n
    (step.1 :: rest.1, rest.2.1, rest.2.2)

/-- The metrics dictionary construction of step 3 of `lambda_handler`; it
subscripts `output['usage']['input_tokens']`, `output['usage']['output_tokens']`
and `len(output['result'].get('places', []))`, any of which can raise. -/
def metricsStep (output : Json) : Except Unit Unit := do
  let usage ← pySubscript output "usage"
  let _ ← pySubscript usage "input_tokens"
  let _ ← pySubscript usage "output_tokens"
  let res ← pySubscript output "result"
  let places ← pyGetD res "places" (.arr [])
  let _ ← pyLen places
  pure ()

/-- `lambda_handler`.  The invocation input is reduced to its `video_id` field
(the only field the handler reads; the input contract types it as a string),
the environment to the bucket name.  `cache` is the module-level
`CACHED_API_KEY`, `acct` the module-level `CURRENT_ACCOUNT_ID` (fetched by an
identity lookup at process start, before any invocation).  `ssm`, `s3Body`,
`transport` and `putOk` are the outcomes of the external calls, should they be
issued.  Returns the handler outcome, the final cache, and the trace of
external operations issued during the invocation. -/
def lambdaHandler (videoId : Option String) (bucket : Option String)
    (cache : Option String) (ssm : Except Unit String)
    (s3Body : Except Unit String) (transport : Except Unit ModelResponse)
    (putOk : Bool) (acct : String) :
    Except HandlerError HandlerResult × Option String × List Op :=
  let step := getApiKeyStep cache ssm
  let cache' := step.2.1
  let ops0 := step.2.2
  match step.1 with
  | .error _ => (.error .credentialError, cache', ops0)
  | .ok _apiKey =>
    if !pyTruthyOptStr videoId || !pyTruthyOptStr bucket then
      (.error (.configError videoId bucket), cache', ops0)
    else
      let v := videoId.getD ""
      let b := bucket.getD ""
      let ops1 := ops0 ++ [Op.s3Get b (v ++ "/source.json") acct]
      match s3Body with
      | .error _ => (.error .storageReadError, cache', ops1)
      | .ok body =>
        match loads body with
        | none => (.error .sourceParseError, cache', ops1)
        | some src =>
          match extract src transport with
          | (.error .payloadErr, exOps) => (.error .payloadError, cache', ops1 ++ exOps)
          | (.error .transportErr, exOps) => (.error .modelError, cache', ops1 ++ exOps)
          | (.ok output, exOps) =>
            match metricsStep output with
            | .error _ => (.error .metricsError, cache', ops1 ++ exOps)
            | .ok _ =>
              let ops2 := ops1 ++ exOps
                ++ [Op.s3Put b (v ++ "/extracted.json") acct (dumps output) "application/json"]
              if putOk then
                (.ok ⟨200, v, v ++ "/extracted.json"⟩, cache', ops2)
              else
                (.error .storageWriteError, cache', ops2)

/-! ## Canonical source dicts for the `_construct_user_content` claims -/

/-- A source dict assembled from an optional `video_info` dict and optional
string-or-null `pinned_comment` / `processed_transcript` fields (`none` =
key absent, `some none` = bound to null, `some (some s)` = bound to `s`). -/
def srcDict (vi : Option (List (String × Json))) (pc tr : Option (Option String)) : Json :=
  .obj ((match vi with
         | none => []
         | some fields => [("video_info", Json.obj fields)])
      ++ (match pc with
          | none => []
          | some none => [("pinned_comment", Json.null)]
          | some (some s) => [("pinned_comment", Json.str s)])
      ++ (match tr with
          | none => []
          | some none => [("processed_transcript", Json.null)]
          | some (some s) => [("processed_transcript", Json.str s)]))

/-- Projection of a `video_info` field with the empty-string default. -/
def viField (vi : Option (List (String × Json))) (k : String) : Json :=
  match vi with
  | none => .str ""
  | some fields => (fields.lookup k).getD (.str "")

/-- The defaulted string field as the code computes it: the default is taken
when the field is absent, null, or the empty string. -/
def defStr : Option (Option String) → String → Json
  | none, d => .str d
  | some none, d => .str d
  | some (some s), d => if s = "" then .str d else .str s

/-- Modelled from the spec (section 4.2 step 1 and claim C7): the user payload
described by the spec's words, where `pinned_comment` defaults to the empty
string only when null-or-absent and `transcript` defaults to the placeholder
only when null-or-absent, strings otherwise passing through verbatim. -/
def specUserPayload (vi : Option (List (String × Json))) (pc tr : Option (Option String)) :
    String :=
  dumps (.obj [
    ("title", viField vi "title"),
    ("description", viField vi "description"),
    ("pinned_comment", .str (match pc with
                             | some (some s) => s
                             | _ => "")),
    ("transcript", .str (match tr with
                         | some (some s) => s
                         | _ => "(자막 없음)"))])

/-- The proviso forced by the C9 counterexample: the input dict's
`video_info` binding, when present, is itself a dict (otherwise
`video_info.get('title', '')` raises `AttributeError`). -/
def videoInfoDictOrAbsent (xs : List (String × Json)) : Bool :=
  match xs.lookup "video_info" with
  | none => true
  | some (Json.obj _) => true
  | some _ => false

/-- Concrete sample values used by witnesses: a SourceRecord matching the
scenario of section 8 of the spec, and model responses for the three
interesting outcomes. -/
def srcSample : Json :=
  Json.obj [("video_info", Json.obj [("title", Json.str "제주 맛집 탐방"),
              ("description", Json.str "")]),
    ("pinned_comment", Json.null),
    ("processed_transcript", Json.str "오늘은 제주 흑돼지 맛집 OO식당에 다녀왔어요")]

def resultSample : AnalysisResult :=
  ⟨"제주 흑돼지 맛집을 다녀온 후기입니다.", [⟨"OO식당", "OO식당 제주"⟩]⟩

def respNoUsage : ModelResponse := ⟨some resultSample, none⟩

def respWithUsage : ModelResponse := ⟨some resultSample, some ⟨50, 30⟩⟩

def respBlocked : ModelResponse := ⟨none, none⟩

/-- The continuation after a printed number never begins with a digit. -/
def headNotDigit : List Char → Prop
  | [] => True
  | c :: _ => isDigitChar c = false

/-- A printed value starts with a significant character that is neither a
closing bracket nor a closing brace. -/
def goodHead (cs : List Char) : Prop :=
  ∃ c t, cs = c :: t ∧ isWsChar c = false ∧ c ≠ ']' ∧ c ≠ '\x7d'

/-! ## Round-trip: auxiliary lemmas -/

theorem data_mk (l : List Char) : (String.mk l).data = l := rfl

theorem mk_data (s : String) : String.mk s.data = s := by
  cases s
  rfl

theorem skipWs_of_head (c : Char) (cs : List Char) (h : isWsChar c = false) :
    skipWs (c :: cs) = c :: cs := by
  simp [skipWs, h]

theorem skipWs_replicate_space (n : Nat) (rest : List Char) :
    skipWs (List.replicate n ' ' ++ rest) = skipWs rest := by
  induction n with
  | zero => simp
  | succ k ih => simpa [List.replicate_succ, skipWs, isWsChar] using ih

theorem skipWs_nl (lvl : Nat) (rest : List Char) :
    skipWs (nlChars lvl ++ rest) = skipWs rest := by
  simpa [nlChars, skipWs, isWsChar] using skipWs_replicate_space (2 * lvl) rest

/-- The facts about a decimal digit character needed to steer the parser. -/
theorem isDigit_decDigit (n : Nat) : isDigitChar (decDigit n) = true := by
  rcases n with _ | _ | _ | _ | _ | _ | _ | _ | _ | n <;> rfl

theorem toNat_decDigit (n : Nat) (h : n < 10) : (decDigit n).toNat = 48 + n := by
  interval_cases n <;> decide

theorem digit_toNat_bounds (c : Char) (h : isDigitChar c = true) :
    48 ≤ c.toNat ∧ c.toNat ≤ 57 := by
  simpa [isDigitChar] using h

theorem digit_ne (c : Char) (h : isDigitChar c = true) (d : Char) (hd : 10 ≤ d.toNat ∧ d.toNat ≤ 47 ∨ 58 ≤ d.toNat) :
    c ≠ d := by
  intro hcd
  have hb := digit_toNat_bounds c h
  subst hcd
  omega

theorem isWsChar_of_digit (c : Char) (h : isDigitChar c = true) : isWsChar c = false := by
  have hb := digit_toNat_bounds c h
  have h1 : c ≠ ' ' := by intro hc; subst hc; revert hb; decide
  have h2 : c ≠ '\n' := by intro hc; subst hc; revert hb; decide
  have h3 : c ≠ '\t' := by intro hc; subst hc; revert hb; decide
  have h4 : c ≠ '\r' := by intro hc; subst hc; revert hb; decide
  simp [isWsChar, h1, h2, h3, h4]

theorem natDigits_eq (n : Nat) :
    natDigits n = if n < 10 then [decDigit n] else natDigits (n / 10) ++ [decDigit (n % 10)] := by
  rw [natDigits]
  split <;> simp_all

theorem natDigits_head (n : Nat) :
    ∃ c cs, natDigits n = c :: cs ∧ isDigitChar c = true := by
  induction n using Nat.strong_induction_on with
  | _ n ih =>
    rw [natDigits_eq]
    by_cases h : n < 10
    · exact ⟨decDigit n, [], by simp [h], isDigit_decDigit n⟩
    · obtain ⟨c, cs, hc, hd⟩ := ih (n / 10) (Nat.div_lt_self (by omega) (by omega))
      exact ⟨c, cs ++ [decDigit (n % 10)], by simp [h, hc], hd⟩

theorem digitsToNat_stop (acc : Nat) (rest : List Char) (h : headNotDigit rest) :
    digitsToNat acc rest = (acc, rest) := by
  cases rest with
  | nil => rfl
  | cons c cs => simpa [digitsToNat] using fun hc => absurd hc (by simpa [headNotDigit] using h)

theorem digitsToNat_natDigits (n : Nat) : ∀ acc rest,
    digitsToNat acc (natDigits n ++ rest) =
      digitsToNat (acc * 10 ^ (natDigits n).length + n) rest := by
  induction n using Nat.strong_induction_on with
  | _ n ih =>
    intro acc rest
    rw [natDigits_eq]
    by_cases h : n < 10
    · have hd := isDigit_decDigit n
      have ht : (decDigit n).toNat = 48 + n := toNat_decDigit n h
      simp [h, digitsToNat, hd, ht]
    · obtain hlt : n / 10 < n := Nat.div_lt_self (by omega) (by omega)
      have hd := isDigit_decDigit (n % 10)
      have ht : (decDigit (n % 10)).toNat = 48 + n % 10 :=
        toNat_decDigit (n % 10) (Nat.mod_lt n (by omega))
      have step := ih (n / 10) hlt acc (decDigit (n % 10) :: rest)
      simp only [h, if_false, List.append_assoc, List.cons_append, List.nil_append]
      rw [step]
      simp only [digitsToNat, hd, if_true, ht]
      have harith : (acc * 10 ^ (natDigits (n / 10)).length + n / 10) * 10 + (48 + n % 10 - 48)
          = acc * 10 ^ (natDigits (n / 10) ++ [decDigit (n % 10)]).length + n := by
        have hmod : n / 10 * 10 + n % 10 = n := by omega
        simp [List.length_append, pow_succ]
        ring_nf
        omega
      rw [harith]

theorem parseNat_natDigits (n : Nat) (rest : List Char) (h : headNotDigit rest) :
    parseNatChars (natDigits n ++ rest) = some (n, rest) := by
  obtain ⟨c, cs, hc, hd⟩ := natDigits_head n
  rw [hc]
  simp only [List.cons_append, parseNatChars, hd, if_true]
  rw [← List.cons_append, ← hc, digitsToNat_natDigits, digitsToNat_stop _ _ h]
  simp

theorem parseInt_intChars (i : Int) (rest : List Char) (h : headNotDigit rest) :
    parseIntChars (intChars i ++ rest) = some (i, rest) := by
  by_cases hneg : i < 0
  · simp only [intChars, hneg, if_true, List.cons_append, parseIntChars]
    rw [parseNat_natDigits _ _ h]
    have habs : ((i.natAbs : Nat) : Int) = -i := Int.ofNat_natAbs_of_nonpos (by omega)
    simp [habs]
  · simp only [intChars, hneg, if_false]
    obtain ⟨c, cs, hc, hd⟩ := natDigits_head i.toNat
    rw [hc]
    have hnd : c ≠ '-' := digit_ne c hd '-' (by left; decide)
    simp only [List.cons_append, parseIntChars, hnd, if_false]
    rw [← List.cons_append, ← hc, parseNat_natDigits _ _ h]
    simp
    omega

theorem hexVal_hexLowerDigit (m : Nat) (h : m < 16) : hexVal (hexLowerDigit m) = some m := by
  interval_cases m <;> decide

/-- Decoding inverts the CPython escaping of one character followed by more
escaped text. -/
theorem parseStr_escList (l : List Char) : ∀ rest,
    parseStrChars (escList l ++ ('"' :: rest)) = some (l, rest) := by
  induction l with
  | nil =>
    intro rest
    show parseStrChars ('"' :: rest) = some ([], rest)
    rw [parseStrChars.eq_def]
    simp
  | cons c l' ih =>
    intro rest
    show parseStrChars (escChar c ++ escList l' ++ ('"' :: rest)) = some (c :: l', rest)
    by_cases h1 : c = '"'
    · subst h1
      rw [show escChar '"' = ['\\', '"'] from rfl]
      simp only [List.cons_append, List.nil_append]
      rw [parseStrChars.eq_def]
      simp [ih]
    by_cases h2 : c = '\\'
    · subst h2
      rw [show escChar '\\' = ['\\', '\\'] from rfl]
      simp only [List.cons_append, List.nil_append]
      rw [parseStrChars.eq_def]
      simp [ih]
    by_cases h3 : c = '\x08'
    · subst h3
      rw [show escChar '\x08' = ['\\', 'b'] from rfl]
      simp only [List.cons_append, List.nil_append]
      rw [parseStrChars.eq_def]
      simp [ih]
    by_cases h4 : c = '\x09'
    · subst h4
      rw [show escChar '\x09' = ['\\', 't'] from rfl]
      simp only [List.cons_append, List.nil_append]
      rw [parseStrChars.eq_def]
      simp [ih]
    by_cases h5 : c = '\x0a'
    · subst h5
      rw [show escChar '\x0a' = ['\\', 'n'] from rfl]
      simp only [List.cons_append, List.nil_append]
      rw [parseStrChars.eq_def]
      simp [ih]
    by_cases h6 : c = '\x0c'
    · subst h6
      rw [show escChar '\x0c' = ['\\', 'f'] from rfl]
      simp only [List.cons_append, List.nil_append]
      rw [parseStrChars.eq_def]
      simp [ih]
    by_cases h7 : c = '\x0d'
    · subst h7
      rw [show escChar '\x0d' = ['\\', 'r'] from rfl]
      simp only [List.cons_append, List.nil_append]
      rw [parseStrChars.eq_def]
      simp [ih]
    by_cases h8 : c.toNat < 32
    · have hesc : escChar c = '\\' :: 'u' :: '0' :: '0'
          :: hexLowerDigit (c.toNat / 16) :: [hexLowerDigit (c.toNat % 16)] := by
        simp [escChar, h1, h2, h3, h4, h5, h6, h7, h8]
      rw [hesc]
      simp only [List.cons_append, List.nil_append]
      rw [parseStrChars.eq_def]
      simp only [if_pos rfl, if_neg (by decide : ¬ ('\\' : Char) = '"'), reduceIte]
      rw [hexVal_hexLowerDigit _ (by omega : c.toNat / 16 < 16),
        hexVal_hexLowerDigit _ (by omega : c.toNat % 16 < 16)]
      have hv0 : hexVal '0' = some 0 := by decide
      rw [hv0]
      have hval : (((0 * 16 + 0) * 16 + c.toNat / 16) * 16 + c.toNat % 16) = c.toNat := by
        omega
      simp only [hval, Char.ofNat_toNat, ih]
      simp
    · have hesc : escChar c = [c] := by
        simp [escChar, h1, h2, h3, h4, h5, h6, h7, h8]
      rw [hesc]
      simp only [List.cons_append, List.nil_append]
      rw [parseStrChars.eq_def]
      simp [h1, h2, h8, ih]

theorem goodHead_skipWs (cs : List Char) (h : goodHead cs) : skipWs cs = cs := by
  obtain ⟨c, t, rfl, hws, _, _⟩ := h
  exact skipWs_of_head c t hws

theorem goodHead_append (cs rest : List Char) (h : goodHead cs) : goodHead (cs ++ rest) := by
  obtain ⟨c, t, rfl, hws, h1, h2⟩ := h
  exact ⟨c, t ++ rest, rfl, hws, h1, h2⟩

theorem printVal_goodHead (lvl : Nat) (j : Json) : goodHead (printVal lvl j) := by
  cases j with
  | null => exact ⟨'n', _, by rw [printVal], by decide, by decide, by decide⟩
  | bool b =>
    cases b with
    | true => exact ⟨'t', _, by rw [printVal], by decide, by decide, by decide⟩
    | false => exact ⟨'f', _, by rw [printVal], by decide, by decide, by decide⟩
  | num i =>
    by_cases hneg : i < 0
    · exact ⟨'-', natDigits i.natAbs, by rw [printVal]; simp [intChars, hneg], by decide,
        by decide, by decide⟩
    · obtain ⟨c, cs, hc, hd⟩ := natDigits_head i.toNat
      refine ⟨c, cs, by rw [printVal]; simp [intChars, hneg, hc], isWsChar_of_digit c hd,
        digit_ne c hd ']' (by right; decide), digit_ne c hd '\x7d' (by right; decide)⟩
  | str s => exact ⟨'"', _, by rw [printVal, strChars], by decide, by decide, by decide⟩
  | arr xs =>
    cases xs with
    | nil => exact ⟨'[', _, by rw [printVal], by decide, by decide, by decide⟩
    | cons x xs => exact ⟨'[', _, by rw [printVal], by decide, by decide, by decide⟩
  | obj xs =>
    cases xs with
    | nil => exact ⟨'\x7b', _, by rw [printVal], by decide, by decide, by decide⟩
    | cons kv xs => exact ⟨'\x7b', _, by rw [printVal], by decide, by decide, by decide⟩

theorem headNotDigit_arrTail (li lc : Nat) (xs : List Json) (rest : List Char) :
    headNotDigit (printArrTail li xs ++ (nlChars lc ++ (']' :: rest))) := by
  cases xs with
  | nil => simp [printArrTail, nlChars, headNotDigit]; decide
  | cons x xs => simp [printArrTail, headNotDigit]; decide

theorem headNotDigit_objTail (li lc : Nat) (xs : List (String × Json)) (rest : List Char) :
    headNotDigit (printObjTail li xs ++ (nlChars lc ++ ('\x7d' :: rest))) := by
  cases xs with
  | nil => simp [printObjTail, nlChars, headNotDigit]; decide
  | cons kv xs => simp [printObjTail, headNotDigit]; decide

theorem jsize_pos (j : Json) : 1 ≤ jsize j := by
  cases j <;> simp [jsize] <;> omega

theorem skipWs_space (t : List Char) : skipWs (' ' :: t) = skipWs t := by
  simp [skipWs, isWsChar]

theorem parseValue_intChars (f : Nat) (cs0 : List Char) (i : Int) (rest : List Char)
    (hnd : headNotDigit rest) (hskip : skipWs cs0 = intChars i ++ rest) :
    parseValue (f + 1) cs0 = some (.num i, rest) := by
  by_cases hneg : i < 0
  · have hform : intChars i ++ rest = '-' :: (natDigits i.natAbs ++ rest) := by
      simp [intChars, hneg]
    rw [hform] at hskip
    rw [parseValue, hskip]
    have hint : parseIntChars ('-' :: (natDigits i.natAbs ++ rest)) = some (i, rest) := by
      rw [← hform]
      exact parseInt_intChars i rest hnd
    simp [hint]
  · obtain ⟨c, cs, hc, hd⟩ := natDigits_head i.toNat
    have hform : intChars i ++ rest = c :: (cs ++ rest) := by
      simp [intChars, hneg, hc]
    rw [hform] at hskip
    rw [parseValue, hskip]
    have hint : parseIntChars (c :: (cs ++ rest)) = some (i, rest) := by
      rw [← hform]
      exact parseInt_intChars i rest hnd
    have n1 : c ≠ '"' := digit_ne c hd '"' (by left; decide)
    have n2 : c ≠ '[' := digit_ne c hd '[' (by right; decide)
    have n3 : c ≠ '\x7b' := digit_ne c hd '\x7b' (by right; decide)
    have n4 : c ≠ 'n' := digit_ne c hd 'n' (by right; decide)
    have n5 : c ≠ 't' := digit_ne c hd 't' (by right; decide)
    have n6 : c ≠ 'f' := digit_ne c hd 'f' (by right; decide)
    simp [n1, n2, n3, n4, n5, n6, hint]

theorem parseValue_strChars (f : Nat) (cs0 : List Char) (s : String) (rest : List Char)
    (hskip : skipWs cs0 = strChars s ++ rest) :
    parseValue (f + 1) cs0 = some (.str s, rest) := by
  have hform : strChars s ++ rest = '"' :: (escList s.data ++ ('"' :: rest)) := by
    simp [strChars]
  rw [hform] at hskip
  rw [parseValue, hskip]
  simp [parseStr_escList s.data rest, mk_data]


/-- The printer/parser round trip, bundled over the three mutually recursive
parsers and proved by strong induction on the parser fuel. -/
theorem parsePrint : ∀ fuel : Nat,
    (∀ lvl (j : Json) rest cs0, jsize j ≤ fuel → headNotDigit rest →
      skipWs cs0 = printVal lvl j ++ rest → parseValue fuel cs0 = some (j, rest)) ∧
    (∀ li lc (x : Json) xs rest cs0, 1 + jsize x + jsizeList xs ≤ fuel →
      skipWs cs0 = printVal li x ++ (printArrTail li xs ++ (nlChars lc ++ (']' :: rest))) →
      parseElems fuel cs0 = some (x :: xs, rest)) ∧
    (∀ li lc k (v : Json) xs rest cs0, 1 + jsize v + jsizeMems xs ≤ fuel →
      skipWs cs0 = strChars k
        ++ (':' :: ' ' :: (printVal li v ++ (printObjTail li xs ++ (nlChars lc ++ ('\x7d' :: rest))))) →
      parseMems fuel cs0 = some ((k, v) :: xs, rest)) := by
  intro fuel
  induction fuel using Nat.strong_induction_on with
  | _ fuel ih =>
    refine ⟨?_, ?_, ?_⟩
    · -- parseValue
      intro lvl j rest cs0 hsz hnd hskip
      have hf1 : 1 ≤ fuel := le_trans (jsize_pos j) hsz
      obtain ⟨f, rfl⟩ : ∃ f, fuel = f + 1 := ⟨fuel - 1, by omega⟩
      cases j with
      | null =>
        rw [printVal] at hskip
        simp only [List.cons_append, List.nil_append] at hskip
        rw [parseValue, hskip]
        simp
      | bool b =>
        cases b with
        | true =>
          rw [printVal] at hskip
          simp only [List.cons_append, List.nil_append] at hskip
          rw [parseValue, hskip]
          simp
        | false =>
          rw [printVal] at hskip
          simp only [List.cons_append, List.nil_append] at hskip
          rw [parseValue, hskip]
          simp
      | num i =>
        rw [printVal] at hskip
        exact parseValue_intChars f cs0 i rest hnd hskip
      | str s =>
        rw [printVal] at hskip
        exact parseValue_strChars f cs0 s rest hskip
      | arr xs =>
        cases xs with
        | nil =>
          rw [printVal] at hskip
          simp only [List.cons_append, List.nil_append] at hskip
          rw [parseValue, hskip]
          have hfix : skipWs (']' :: rest) = ']' :: rest := skipWs_of_head _ _ (by decide)
          simp [hfix]
        | cons x xs =>
          rw [printVal] at hskip
          simp only [List.cons_append, List.nil_append, List.append_assoc] at hskip
          obtain ⟨c2, t2, hpv, hws2, hne1, hne2⟩ := printVal_goodHead (lvl + 1) x
          have hre : skipWs (nlChars (lvl + 1) ++ (printVal (lvl + 1) x
              ++ (printArrTail (lvl + 1) xs ++ (nlChars lvl ++ (']' :: rest)))))
              = c2 :: (t2 ++ (printArrTail (lvl + 1) xs ++ (nlChars lvl ++ (']' :: rest)))) := by
            rw [skipWs_nl, hpv]
            simp only [List.cons_append]
            exact skipWs_of_head _ _ hws2
          have helems : parseElems f (c2 :: (t2
              ++ (printArrTail (lvl + 1) xs ++ (nlChars lvl ++ (']' :: rest)))))
              = some (x :: xs, rest) := by
            apply (ih f (by omega)).2.1 (lvl + 1) lvl
            · rw [jsize, jsizeList] at hsz
              omega
            · rw [skipWs_of_head _ _ hws2, ← List.cons_append, ← hpv]
          rw [parseValue, hskip]
          simp [hre, hne1, hne2, helems]
      | obj xs =>
        cases xs with
        | nil =>
          rw [printVal] at hskip
          simp only [List.cons_append, List.nil_append] at hskip
          rw [parseValue, hskip]
          have hfix : skipWs ('\x7d' :: rest) = '\x7d' :: rest := skipWs_of_head _ _ (by decide)
          simp [hfix]
        | cons kv xs =>
          rw [printVal] at hskip
          simp only [List.cons_append, List.nil_append, List.append_assoc] at hskip
          have hre : skipWs (nlChars (lvl + 1) ++ (strChars kv.1
              ++ (':' :: ' ' :: (printVal (lvl + 1) kv.2
                ++ (printObjTail (lvl + 1) xs ++ (nlChars lvl ++ ('\x7d' :: rest)))))))
              = '"' :: (escList kv.1.data ++ ('"' :: (':' :: ' ' :: (printVal (lvl + 1) kv.2
                ++ (printObjTail (lvl + 1) xs ++ (nlChars lvl ++ ('\x7d' :: rest))))))) := by
            rw [skipWs_nl, strChars]
            simp only [List.cons_append, List.append_assoc, List.nil_append]
            exact skipWs_of_head _ _ (by decide)
          have hmems : parseMems f ('"' :: (escList kv.1.data
              ++ ('"' :: (':' :: ' ' :: (printVal (lvl + 1) kv.2
                ++ (printObjTail (lvl + 1) xs ++ (nlChars lvl ++ ('\x7d' :: rest))))))))
              = some ((kv.1, kv.2) :: xs, rest) := by
            apply (ih f (by omega)).2.2 (lvl + 1) lvl
            · rw [jsize, jsizeMems] at hsz
              omega
            · rw [skipWs_of_head _ _ (by decide), strChars]
              simp
          rw [parseValue, hskip]
          simp [hre, hmems]
    · -- parseElems
      intro li lc x xs rest cs0 hsz hskip
      obtain ⟨f, rfl⟩ : ∃ f, fuel = f + 1 := ⟨fuel - 1, by omega⟩
      rw [parseElems]
      have hval : parseValue f cs0
          = some (x, printArrTail li xs ++ (nlChars lc ++ (']' :: rest))) := by
        apply (ih f (by omega)).1 li
        · omega
        · exact headNotDigit_arrTail li lc xs rest
        · exact hskip
      cases xs with
      | nil =>
        have hfix : skipWs (printArrTail li [] ++ (nlChars lc ++ (']' :: rest)))
            = ']' :: rest := by
          rw [printArrTail]
          simp only [List.nil_append]
          rw [skipWs_nl]
          exact skipWs_of_head _ _ (by decide)
        simp [hval, hfix]
      | cons y ys =>
        have hfix : skipWs (printArrTail li (y :: ys) ++ (nlChars lc ++ (']' :: rest)))
            = ',' :: (nlChars li ++ (printVal li y ++ (printArrTail li ys
              ++ (nlChars lc ++ (']' :: rest))))) := by
          rw [printArrTail]
          simp only [List.cons_append, List.append_assoc]
          exact skipWs_of_head _ _ (by decide)
        have helems : parseElems f (nlChars li ++ (printVal li y ++ (printArrTail li ys
            ++ (nlChars lc ++ (']' :: rest))))) = some (y :: ys, rest) := by
          apply (ih f (by omega)).2.1 li lc
          · rw [jsizeList] at hsz
            omega
          · rw [skipWs_nl]
            exact goodHead_skipWs _ (goodHead_append _ _ (printVal_goodHead _ y))
        simp [hval, hfix, helems]
    · -- parseMems
      intro li lc k v xs rest cs0 hsz hskip
      obtain ⟨f, rfl⟩ : ∃ f, fuel = f + 1 := ⟨fuel - 1, by omega⟩
      rw [parseMems]
      have hws1 : skipWs (':' :: ' ' :: (printVal li v
          ++ (printObjTail li xs ++ (nlChars lc ++ ('\x7d' :: rest)))))
          = ':' :: ' ' :: (printVal li v
            ++ (printObjTail li xs ++ (nlChars lc ++ ('\x7d' :: rest)))) :=
        skipWs_of_head _ _ (by decide)
      have hval : parseValue f (' ' :: (printVal li v
          ++ (printObjTail li xs ++ (nlChars lc ++ ('\x7d' :: rest)))))
          = some (v, printObjTail li xs ++ (nlChars lc ++ ('\x7d' :: rest))) := by
        apply (ih f (by omega)).1 li
        · omega
        · exact headNotDigit_objTail li lc xs rest
        · rw [skipWs_space]
          exact goodHead_skipWs _ (goodHead_append _ _ (printVal_goodHead _ v))
      cases xs with
      | nil =>
        have hfix : skipWs (printObjTail li [] ++ (nlChars lc ++ ('\x7d' :: rest)))
            = '\x7d' :: rest := by
          rw [printObjTail]
          simp only [List.nil_append]
          rw [skipWs_nl]
          exact skipWs_of_head _ _ (by decide)
        simp [hskip, strChars, parseStr_escList, hws1, hval, hfix, mk_data]
      | cons kv ys =>
        obtain ⟨k2, v2⟩ := kv
        have hfix : skipWs (printObjTail li ((k2, v2) :: ys) ++ (nlChars lc ++ ('\x7d' :: rest)))
            = ',' :: (nlChars li ++ ('"' :: (escList k2.data ++ ('"' :: ':' :: ' ' :: (printVal li v2
              ++ (printObjTail li ys ++ (nlChars lc ++ ('\x7d' :: rest)))))))) := by
          rw [printObjTail, strChars]
          simp only [List.cons_append, List.append_assoc, List.nil_append]
          exact skipWs_of_head _ _ (by decide)
        have hmems : parseMems f (nlChars li ++ ('"' :: (escList k2.data
            ++ ('"' :: ':' :: ' ' :: (printVal li v2
              ++ (printObjTail li ys ++ (nlChars lc ++ ('\x7d' :: rest))))))))
            = some ((k2, v2) :: ys, rest) := by
          apply (ih f (by omega)).2.2 li lc
          · rw [jsizeMems] at hsz
            simp at hsz
            omega
          · rw [skipWs_nl, skipWs_of_head _ _ (by decide), strChars]
            simp
        simp [hskip, strChars, parseStr_escList, hws1, hval, hfix, hmems, mk_data]

/-- Every printed value has at least as many characters as its node count, so
the fuel `length + 1` used by `loads` always suffices. -/
theorem sizeLen : ∀ fuel : Nat,
    (∀ lvl (j : Json), jsize j ≤ fuel → jsize j ≤ (printVal lvl j).length) ∧
    (∀ lvl (xs : List Json), jsizeList xs ≤ fuel → jsizeList xs ≤ (printArrTail lvl xs).length) ∧
    (∀ lvl (xs : List (String × Json)), jsizeMems xs ≤ fuel →
      jsizeMems xs ≤ (printObjTail lvl xs).length) := by
  intro fuel
  induction fuel using Nat.strong_induction_on with
  | _ fuel ih =>
    refine ⟨?_, ?_, ?_⟩
    · intro lvl j hsz
      have hf1 : 1 ≤ fuel := le_trans (jsize_pos j) hsz
      cases j with
      | null => rw [printVal]; simp [jsize]
      | bool b => cases b <;> (rw [printVal]; simp [jsize])
      | num i =>
        rw [printVal, jsize]
        by_cases hneg : i < 0
        · simp [intChars, hneg]
        · obtain ⟨c, cs, hc, _⟩ := natDigits_head i.toNat
          simp [intChars, hneg, hc]
      | str s => rw [printVal, strChars]; simp [jsize]
      | arr xs =>
        cases xs with
        | nil => rw [printVal]; simp [jsize, jsizeList]
        | cons x xs =>
          rw [printVal]
          rw [jsize, jsizeList] at hsz ⊢
          have hx : jsize x ≤ (printVal (lvl + 1) x).length := by
            apply ((ih (fuel - 1) (by omega)).1)
            omega
          have hxs : jsizeList xs ≤ (printArrTail (lvl + 1) xs).length := by
            apply ((ih (fuel - 1) (by omega)).2.1)
            omega
          simp only [List.length_cons, List.length_append, nlChars, List.length_replicate]
          simp
          omega
      | obj xs =>
        cases xs with
        | nil => rw [printVal]; simp [jsize, jsizeMems]
        | cons kv xs =>
          rw [printVal]
          rw [jsize, jsizeMems] at hsz ⊢
          have hx : jsize kv.2 ≤ (printVal (lvl + 1) kv.2).length := by
            apply ((ih (fuel - 1) (by omega)).1)
            omega
          have hxs : jsizeMems xs ≤ (printObjTail (lvl + 1) xs).length := by
            apply ((ih (fuel - 1) (by omega)).2.2)
            omega
          simp only [List.length_cons, List.length_append, nlChars, List.length_replicate]
          simp
          omega
    · intro lvl xs hsz
      cases xs with
      | nil => simp [jsizeList]
      | cons x xs =>
        rw [jsizeList] at hsz ⊢
        rw [printArrTail]
        have hne : 1 ≤ jsize x := jsize_pos x
        have hx : jsize x ≤ (printVal lvl x).length := by
          apply ((ih (fuel - 1) (by omega)).1)
          omega
        have hxs : jsizeList xs ≤ (printArrTail lvl xs).length := by
          apply ((ih (fuel - 1) (by omega)).2.1)
          omega
        simp only [List.length_cons, List.length_append, nlChars, List.length_replicate]
        simp
        omega
    · intro lvl xs hsz
      cases xs with
      | nil => simp [jsizeMems]
      | cons kv xs =>
        rw [jsizeMems] at hsz ⊢
        rw [printObjTail]
        have hne : 1 ≤ jsize kv.2 := jsize_pos kv.2
        have hx : jsize kv.2 ≤ (printVal lvl kv.2).length := by
          apply ((ih (fuel - 1) (by omega)).1)
          omega
        have hxs : jsizeMems xs ≤ (printObjTail lvl xs).length := by
          apply ((ih (fuel - 1) (by omega)).2.2)
          omega
        simp only [List.length_cons, List.length_append, nlChars, List.length_replicate]
        simp
        omega

/-- The JSON round trip of this program: a value serialized the way
`save_result_to_s3` serializes deserializes back to itself the way
`get_source_data_from_s3` deserializes. -/
theorem loads_dumps (j : Json) : loads (dumps j) = some j := by
  unfold loads dumps
  rw [data_mk]
  have hlen : jsize j ≤ (printVal 0 j).length := (sizeLen (jsize j)).1 0 j le_rfl
  have hparse : parseValue ((printVal 0 j).length + 1) (printVal 0 j) = some (j, []) := by
    apply (parsePrint ((printVal 0 j).length + 1)).1 0 j []
    · omega
    · simp [headNotDigit]
    · rw [List.append_nil]
      exact goodHead_skipWs _ (printVal_goodHead 0 j)
  rw [hparse]
  simp [skipWs]

/-! ## Extraction-side helper lemmas -/

/-- A SourceRecord that conforms to the data model makes
`_construct_user_content` succeed. -/
theorem cUC_ok_of_valid (src : Json) (h : validSourceRecord src = true) :
    ∃ s, constructUserContent src = .ok s := by
  cases src with
  | obj xs =>
    rw [validSourceRecord] at h
    cases hvi : xs.lookup "video_info" with
    | none => rw [hvi] at h; simp at h
    | some vi =>
      cases vi with
      | obj vs =>
        unfold constructUserContent
        simp [pyGetD, hvi, Except.bind, bind]
        exact ⟨_, rfl⟩
      | null => rw [hvi] at h; simp at h
      | bool b => rw [hvi] at h; simp at h
      | num i => rw [hvi] at h; simp at h
      | str s => rw [hvi] at h; simp at h
      | arr l => rw [hvi] at h; simp at h
  | null => simp [validSourceRecord] at h
  | bool b => simp [validSourceRecord] at h
  | num i => simp [validSourceRecord] at h
  | str s => simp [validSourceRecord] at h
  | arr l => simp [validSourceRecord] at h

/-- Whatever the model response, the normalized output conforms to the
ExtractionOutput data model of the spec. -/
theorem extractOutput_shape (resp : ModelResponse) :
    isExtractionOutputJson (extractOutput resp) = true := by
  cases hp : resp.parsed with
  | none =>
    rw [extractOutput, hp]
    rfl
  | some r =>
    cases hu : resp.usage_metadata with
    | none =>
      rw [extractOutput, hp, hu]
      simp [isExtractionOutputJson, isAnalysisResultJson, analysisToJson, List.all_map,
        isPlaceItemJson, placeToJson, Function.comp]
    | some u =>
      rw [extractOutput, hp, hu]
      simp [isExtractionOutputJson, isAnalysisResultJson, analysisToJson, List.all_map,
        isPlaceItemJson, placeToJson, Function.comp]

/-- With a parsed payload present, the metrics dictionary of the handler is
computable (both `usage` subscripts and the `result` lookup succeed). -/
theorem metricsStep_parsed (resp : ModelResponse) (r : AnalysisResult)
    (h : resp.parsed = some r) : metricsStep (extractOutput resp) = .ok () := by
  cases hu : resp.usage_metadata with
  | none =>
    rw [extractOutput, h, hu]
    unfold metricsStep
    simp [pySubscript, pyGetD, pyLen, analysisToJson, List.lookup, Except.bind, bind]
    rfl
  | some u =>
    rw [extractOutput, h, hu]
    unfold metricsStep
    simp [pySubscript, pyGetD, pyLen, analysisToJson, List.lookup, Except.bind, bind]
    rfl

/-- The fallback record makes the metrics step raise a `KeyError` on
`output['usage']`. -/
theorem metricsStep_fallback (resp : ModelResponse) (h : resp.parsed = none) :
    metricsStep (extractOutput resp) = .error () := by
  rw [extractOutput, h]
  rfl

/-- The user payload as the code computes it, over a canonical source dict:
each of `pinned_comment` and `processed_transcript` falls back to its default
when absent, null, or the empty string. -/
theorem cUC_srcDict (vi : Option (List (String × Json))) (pc tr : Option (Option String)) :
    constructUserContent (srcDict vi pc tr) =
      .ok (dumps (Json.obj [
        ("title", viField vi "title"),
        ("description", viField vi "description"),
        ("pinned_comment", defStr pc ""),
        ("transcript", defStr tr "(자막 없음)")])) := by
  rcases vi with _ | fields <;> rcases pc with _ | (_ | pcs) <;> rcases tr with _ | (_ | trs) <;>
    simp [srcDict, constructUserContent, pyGetD, viField, defStr, pyTruthy, Except.bind, bind,
      List.lookup, pure, Except.pure]

/-- One `get_api_key` call fetches externally at most once. -/
theorem getApiKeyStep_ops (cache : Option String) (ssm : Except Unit String) :
    (getApiKeyStep cache ssm).2.2 = [] ∨ (getApiKeyStep cache ssm).2.2 = [Op.ssmFetch] := by
  unfold getApiKeyStep
  split
  · left; rfl
  · cases ssm
    · right; rfl
    · right; rfl

/-- Once the cache holds a non-empty key, any number of further calls return
it without fetching. -/
theorem runGetApiKey_cached (oracle : Nat → Except Unit String) (v : String)
    (hv : v ≠ "") : ∀ (n fetches : Nat),
    runGetApiKey oracle (some v) fetches n
      = (List.replicate n (Except.ok v), some v, fetches) := by
  intro n
  induction n with
  | zero => intro fetches; rfl
  | succ k ih =>
    intro fetches
    have ht : pyTruthyOptStr (some v) = true := by simp [pyTruthyOptStr, hv]
    rw [runGetApiKey]
    simp only [getApiKeyStep, ht, if_true, Option.getD_some]
    rw [ih]
    simp [List.replicate_succ]

/-! ## Claim theorems -/

/-- C3: for every valid SourceRecord input, `extract` returns exactly one of
two shapes — either a record whose `result` conforms to AnalysisResult with
non-negative integer usage counts (each defaulting to 0 when the response
carries no usage metadata), or the fixed fallback shape — never a malformed or
partial object. -/
theorem C3_extract_shape (src : Json) (resp : ModelResponse)
    (hsrc : validSourceRecord src = true) :
    (extract src (Except.ok resp)).1 = Except.ok (extractOutput resp) ∧
    isExtractionOutputJson (extractOutput resp) = true ∧
    (resp.usage_metadata = none → ∀ r : AnalysisResult, resp.parsed = some r →
      extractOutput resp = Json.obj [("result", analysisToJson r),
        ("usage", Json.obj [("input_tokens", Json.num 0), ("output_tokens", Json.num 0)])]) := by
  obtain ⟨s, hs⟩ := cUC_ok_of_valid src hsrc
  refine ⟨?_, extractOutput_shape resp, ?_⟩
  · simp [extract, hs]
  · intro hu r hr
    rw [extractOutput, hr, hu]
    simp

theorem C3_extract_shape_witness :
    validSourceRecord srcSample = true ∧
    (extract srcSample (Except.ok respNoUsage)).1 = Except.ok (extractOutput respNoUsage) ∧
    isExtractionOutputJson (extractOutput respNoUsage) = true ∧
    extractOutput respNoUsage = Json.obj [("result", analysisToJson resultSample),
      ("usage", Json.obj [("input_tokens", Json.num 0), ("output_tokens", Json.num 0)])] := by
  have h := C3_extract_shape srcSample respNoUsage (by rfl)
  exact ⟨by rfl, h.1, h.2.1, h.2.2 rfl resultSample rfl⟩

/-- C4: whenever the model response yields no parsed object, `extract` returns
exactly the record with the fixed placeholder summary and the empty places
list — no `usage` key and no `result` wrapper. -/
theorem C4_fallback_exact (src : Json) (resp : ModelResponse)
    (hsrc : validSourceRecord src = true) (hp : resp.parsed = none) :
    (extract src (Except.ok resp)).1 =
      Except.ok (Json.obj [("summary", Json.str "분석 결과 없음 (안전 필터 또는 내용 없음)"),
        ("places", Json.arr [])]) := by
  obtain ⟨s, hs⟩ := cUC_ok_of_valid src hsrc
  simp [extract, hs, extractOutput, hp]

theorem C4_fallback_exact_witness :
    validSourceRecord srcSample = true ∧ respBlocked.parsed = none ∧
    (extract srcSample (Except.ok respBlocked)).1 =
      Except.ok (Json.obj [("summary", Json.str "분석 결과 없음 (안전 필터 또는 내용 없음)"),
        ("places", Json.arr [])]) :=
  ⟨by rfl, rfl, C4_fallback_exact srcSample respBlocked (by rfl) rfl⟩

/-- C5, counterexample: the claim fails when the first successful fetch
returns the empty string.  The cache is then populated with `""`, but the
truthiness test `if CACHED_API_KEY:` treats it as unset, so a second call
performs a second external fetch (two fetches for two calls, not one). -/
theorem C5_counterexample :
    (runGetApiKey (fun _ => Except.ok "") none 0 2).2.2 = 2 ∧
    ¬ (runGetApiKey (fun _ => Except.ok "") none 0 2).2.2 = 1 := by
  constructor
  · rfl
  · decide

/-- C5, amended: after a first successful fetch of a NON-EMPTY key populates
the cache, every later call returns that same string and performs no external
fetch — `n + 1` calls from a cold cache amount to exactly one external
fetch. -/
theorem C5_amended (v : String) (oracle : Nat → Except Unit String) (n : Nat)
    (hv : v ≠ "") (h0 : oracle 0 = Except.ok v) :
    runGetApiKey oracle none 0 (n + 1)
      = (List.replicate (n + 1) (Except.ok v), some v, 1) := by
  rw [runGetApiKey]
  simp only [getApiKeyStep, pyTruthyOptStr, if_neg (by simp : ¬ (false : Bool) = true), h0]
  simp only [List.length_cons, List.length_nil]
  rw [runGetApiKey_cached oracle v hv n 1]
  simp [List.replicate_succ]

theorem C5_amended_witness :
    runGetApiKey (fun _ => Except.ok "sk-123") none 0 3
      = (List.replicate 3 (Except.ok "sk-123"), some "sk-123", 1) :=
  C5_amended "sk-123" (fun _ => Except.ok "sk-123") 2 (by decide) rfl

/-- C8: every ExtractionOutput value (success shape or fallback shape),
serialized the way the storage write does and parsed the way the storage read
does, deserializes to an identical structure. -/
theorem C8_roundtrip (j : Json) (_hshape : isExtractionOutputJson j = true) :
    loads (dumps j) = some j :=
  loads_dumps j

theorem C8_roundtrip_witness :
    isExtractionOutputJson (extractOutput respBlocked) = true ∧
    loads (dumps (extractOutput respBlocked)) = some (extractOutput respBlocked) :=
  ⟨by rfl, C8_roundtrip (extractOutput respBlocked) (by rfl)⟩

/-- C9, counterexample: `_construct_user_content` DOES raise on some input
dicts — here `video_info` is bound to null, so `video_info.get('title', '')`
raises `AttributeError`. -/
theorem C9_counterexample :
    constructUserContent (Json.obj [("video_info", Json.null)]) = Except.error () := rfl

/-- C9, amended: for EVERY input dict whose `video_info` binding, when
present, is itself a dict (arbitrary values and extra keys allowed
otherwise), `_construct_user_content` does not raise: it returns the
serialization of a four-field payload.  Moreover the `transcript` field is
the placeholder whenever `processed_transcript` is absent, null, or the empty
string; the `pinned_comment` field is the empty string whenever
`pinned_comment` is absent, null, or the empty string; and a missing
`video_info`, `title` or `description` yields the empty-string defaults. -/
theorem C9_amended (xs : List (String × Json))
    (hvi : videoInfoDictOrAbsent xs = true) :
    ∃ t d p tr : Json,
      constructUserContent (Json.obj xs) = Except.ok (dumps (Json.obj
        [("title", t), ("description", d), ("pinned_comment", p), ("transcript", tr)])) ∧
      ((xs.lookup "processed_transcript" = none ∨
        xs.lookup "processed_transcript" = some Json.null ∨
        xs.lookup "processed_transcript" = some (Json.str "")) →
          tr = Json.str "(자막 없음)") ∧
      ((xs.lookup "pinned_comment" = none ∨
        xs.lookup "pinned_comment" = some Json.null ∨
        xs.lookup "pinned_comment" = some (Json.str "")) → p = Json.str "") ∧
      (xs.lookup "video_info" = none → t = Json.str "" ∧ d = Json.str "") ∧
      (∀ vs : List (String × Json), xs.lookup "video_info" = some (Json.obj vs) →
        (vs.lookup "title" = none → t = Json.str "") ∧
        (vs.lookup "description" = none → d = Json.str "")) := by
  rw [videoInfoDictOrAbsent] at hvi
  cases hlvi : xs.lookup "video_info" with
  | none =>
    have heq : constructUserContent (Json.obj xs)
        = Except.ok (dumps (Json.obj [
            ("title", Json.str ""),
            ("description", Json.str ""),
            ("pinned_comment",
              if pyTruthy ((xs.lookup "pinned_comment").getD Json.null) = true
              then (xs.lookup "pinned_comment").getD Json.null else Json.str ""),
            ("transcript",
              if pyTruthy ((xs.lookup "processed_transcript").getD Json.null) = true
              then (xs.lookup "processed_transcript").getD Json.null
              else Json.str "(자막 없음)")])) := by
      unfold constructUserContent
      simp [pyGetD, hlvi, Except.bind, bind, List.lookup, pure, Except.pure]
    refine ⟨_, _, _, _, heq, ?_, ?_, fun _ => ⟨rfl, rfl⟩, ?_⟩
    · rintro (h0 | h0 | h0) <;> simp [h0, pyTruthy]
    · rintro (h0 | h0 | h0) <;> simp [h0, pyTruthy]
    · intro vs hvs0
      simp at hvs0
  | some vi =>
    cases vi with
    | obj vs =>
      have heq : constructUserContent (Json.obj xs)
          = Except.ok (dumps (Json.obj [
              ("title", (vs.lookup "title").getD (Json.str "")),
              ("description", (vs.lookup "description").getD (Json.str "")),
              ("pinned_comment",
                if pyTruthy ((xs.lookup "pinned_comment").getD Json.null) = true
                then (xs.lookup "pinned_comment").getD Json.null else Json.str ""),
              ("transcript",
                if pyTruthy ((xs.lookup "processed_transcript").getD Json.null) = true
                then (xs.lookup "processed_transcript").getD Json.null
                else Json.str "(자막 없음)")])) := by
        unfold constructUserContent
        simp [pyGetD, hlvi, Except.bind, bind, pure, Except.pure]
      refine ⟨_, _, _, _, heq, ?_, ?_, ?_, ?_⟩
      · rintro (h0 | h0 | h0) <;> simp [h0, pyTruthy]
      · rintro (h0 | h0 | h0) <;> simp [h0, pyTruthy]
      · intro h0
        simp at h0
      · intro vs2 hvs0
        obtain rfl : vs = vs2 := Json.obj.inj (Option.some.inj hvs0)
        exact ⟨fun h0 => by simp [h0], fun h0 => by simp [h0]⟩
    | null => rw [hlvi] at hvi; simp at hvi
    | bool b => rw [hlvi] at hvi; simp at hvi
    | num i => rw [hlvi] at hvi; simp at hvi
    | str s => rw [hlvi] at hvi; simp at hvi
    | arr l => rw [hlvi] at hvi; simp at hvi

theorem C9_amended_witness :
    videoInfoDictOrAbsent
        [("pinned_comment", Json.null), ("processed_transcript", Json.str ""),
         ("extra", Json.num 5)] = true ∧
    constructUserContent (Json.obj
        [("pinned_comment", Json.null), ("processed_transcript", Json.str ""),
         ("extra", Json.num 5)])
      = Except.ok (dumps (Json.obj [
          ("title", Json.str ""),
          ("description", Json.str ""),
          ("pinned_comment", Json.str ""),
          ("transcript", Json.str "(자막 없음)")])) := by
  refine ⟨rfl, ?_⟩
  obtain ⟨t, d, p, tr, heq, htr, hp, hvi0, _⟩ :=
    C9_amended [("pinned_comment", Json.null), ("processed_transcript", Json.str ""),
      ("extra", Json.num 5)] (by rfl)
  obtain ⟨rfl, rfl⟩ := hvi0 (by rfl)
  obtain rfl := htr (Or.inr (Or.inr (by rfl)))
  obtain rfl := hp (Or.inr (Or.inl (by rfl)))
  exact heq

/-- C7, counterexample: the user payload is NOT always the serialization the
spec describes.  With `processed_transcript` bound to the empty string (a
valid string value), the spec projection keeps the empty transcript, but the
code's `or` fallback substitutes the placeholder. -/
theorem C7_counterexample :
    constructUserContent
        (srcDict (some [("title", Json.str "제목"), ("description", Json.str "")])
          (some none) (some (some ""))) ≠
      Except.ok (specUserPayload (some [("title", Json.str "제목"), ("description", Json.str "")])
        (some none) (some (some ""))) := fun h =>
  absurd (congrArg (fun e => match e with | Except.ok s => s | Except.error _ => "") h)
    (by decide)

/-- C7, amended: the user payload is the `json.dumps(..., ensure_ascii=False,
indent=2)` serialization of exactly the four projected fields, where the
defaults apply when the field is null OR empty (not only when null); the text
is indented (it begins with a brace, a newline and the two-space indent) and
every character at or above U+0080 is passed through unescaped. -/
theorem C7_amended (vi : Option (List (String × Json))) (pc tr : Option (Option String)) :
    constructUserContent (srcDict vi pc tr) =
      .ok (dumps (Json.obj [
        ("title", viField vi "title"),
        ("description", viField vi "description"),
        ("pinned_comment", defStr pc ""),
        ("transcript", defStr tr "(자막 없음)")])) ∧
    (∀ c : Char, 128 ≤ c.toNat → escChar c = [c]) ∧
    (∃ cs : List Char, (dumps (Json.obj [
        ("title", viField vi "title"),
        ("description", viField vi "description"),
        ("pinned_comment", defStr pc ""),
        ("transcript", defStr tr "(자막 없음)")])).data = '\x7b' :: '\n' :: ' ' :: ' ' :: cs) := by
  refine ⟨cUC_srcDict vi pc tr, ?_, ?_⟩
  · intro c hc
    have h1 : ¬ c = '"' := by intro h; subst h; exact absurd hc (by decide)
    have h2 : ¬ c = '\\' := by intro h; subst h; exact absurd hc (by decide)
    have h3 : ¬ c = '\x08' := by intro h; subst h; exact absurd hc (by decide)
    have h4 : ¬ c = '\x09' := by intro h; subst h; exact absurd hc (by decide)
    have h5 : ¬ c = '\x0a' := by intro h; subst h; exact absurd hc (by decide)
    have h6 : ¬ c = '\x0c' := by intro h; subst h; exact absurd hc (by decide)
    have h7 : ¬ c = '\x0d' := by intro h; subst h; exact absurd hc (by decide)
    have h8 : ¬ c.toNat < 32 := by omega
    simp [escChar, h1, h2, h3, h4, h5, h6, h7, h8]
  · rw [dumps, data_mk, printVal, show nlChars 1 = '\n' :: [' ', ' '] from rfl]
    exact ⟨strChars "title" ++ ':' :: ' ' :: (printVal 1 (viField vi "title")
      ++ (printObjTail 1 [("description", viField vi "description"),
            ("pinned_comment", defStr pc ""), ("transcript", defStr tr "(자막 없음)")]
        ++ (nlChars 0 ++ ['\x7d']))), by simp⟩

theorem C7_amended_witness :
    constructUserContent (srcDict (some [("title", Json.str "제목")]) none (some (some ""))) =
      .ok (dumps (Json.obj [
        ("title", Json.str "제목"),
        ("description", Json.str ""),
        ("pinned_comment", Json.str ""),
        ("transcript", Json.str "(자막 없음)")])) ∧
    escChar '제' = ['제'] := by
  have h := C7_amended (some [("title", Json.str "제목")]) none (some (some ""))
  exact ⟨h.1, h.2.1 '제' (by decide)⟩

/-- C1, counterexample: on a cold cache, an invocation with no `video_id`
still performs the parameter-store fetch — the handler calls `get_api_key()`
BEFORE validating `video_id` and the bucket name — and only then raises the
configuration error.  The trace of the invocation contains the external
fetch. -/
theorem C1_counterexample :
    (lambdaHandler none (some "bkt") none (Except.ok "key") (Except.ok "")
        (Except.ok respBlocked) true "acct").1
      = Except.error (HandlerError.configError none (some "bkt")) ∧
    Op.ssmFetch ∈ (lambdaHandler none (some "bkt") none (Except.ok "key") (Except.ok "")
        (Except.ok respBlocked) true "acct").2.2 := by
  constructor
  · rfl
  · rw [show (lambdaHandler none (some "bkt") none (Except.ok "key") (Except.ok "")
        (Except.ok respBlocked) true "acct").2.2 = [Op.ssmFetch] from rfl]
    exact List.mem_singleton.mpr rfl

/-- C2: the code crashes where the claim says it must not.  With a valid
stored source record and a model response carrying no parsed payload,
`extract` returns the fallback record, and the metrics step raises `KeyError`
on `output['usage']`: the invocation fails with the metrics error and the
storage write is never issued (no `s3Put` in the trace). -/
theorem C2_metrics_crash :
    lambdaHandler (some "abc123") (some "test-bucket") (some "key") (Except.ok "key")
        (Except.ok (dumps srcSample)) (Except.ok respBlocked) true "acct"
      = (Except.error HandlerError.metricsError, some "key",
         [Op.s3Get "test-bucket" "abc123/source.json" "acct", Op.modelCall]) := by
  have hbody : loads (dumps srcSample) = some srcSample := loads_dumps srcSample
  have hex : extract srcSample (Except.ok respBlocked)
      = (Except.ok (extractOutput respBlocked), [Op.modelCall]) := by
    simp [extract, show constructUserContent srcSample
      = Except.ok (dumps (Json.obj [("title", Json.str "제주 맛집 탐방"),
          ("description", Json.str ""), ("pinned_comment", Json.str ""),
          ("transcript", Json.str "오늘은 제주 흑돼지 맛집 OO식당에 다녀왔어요")])) from rfl]
  have hms : metricsStep (extractOutput respBlocked) = Except.error () :=
    metricsStep_fallback respBlocked rfl
  simp [lambdaHandler, getApiKeyStep, pyTruthyOptStr, hbody, hex, hms]

/-- C6: on every successful invocation with video id `v` and bucket `b`, the
handler reads `v ++ "/source.json"` from `b`, writes the pretty-printed
extraction output with content type `application/json` to
`v ++ "/extracted.json"` in `b`, asserts the expected bucket-owner account on
both storage operations, and returns the record with status 200, the video id
and the derived key.  The storage trace follows whatever the credential step
did (nothing on a warm cache, one fetch on a cold one). -/
theorem C6_success (v b acct body : String) (cache : Option String)
    (ssm : Except Unit String) (src : Json) (resp : ModelResponse)
    (r : AnalysisResult) (apiKey : String)
    (hv : v ≠ "") (hb : b ≠ "")
    (hkey : (getApiKeyStep cache ssm).1 = Except.ok apiKey)
    (hbody : loads body = some src)
    (hsrc : validSourceRecord src = true)
    (hr : resp.parsed = some r) :
    lambdaHandler (some v) (some b) cache ssm (Except.ok body) (Except.ok resp) true acct =
      (Except.ok ⟨200, v, v ++ "/extracted.json"⟩, (getApiKeyStep cache ssm).2.1,
       (getApiKeyStep cache ssm).2.2
         ++ [Op.s3Get b (v ++ "/source.json") acct, Op.modelCall,
             Op.s3Put b (v ++ "/extracted.json") acct (dumps (extractOutput resp))
               "application/json"]) := by
  obtain ⟨uc, huc⟩ := cUC_ok_of_valid src hsrc
  have hvt : pyTruthyOptStr (some v) = true := by simp [pyTruthyOptStr, hv]
  have hbt : pyTruthyOptStr (some b) = true := by simp [pyTruthyOptStr, hb]
  have hex : extract src (Except.ok resp) = (Except.ok (extractOutput resp), [Op.modelCall]) := by
    simp [extract, huc]
  rcases hstep : getApiKeyStep cache ssm with ⟨kr, c2, ops0⟩
  rw [hstep] at hkey
  simp only at hkey
  subst hkey
  simp [lambdaHandler, hstep, hvt, hbt, hbody, hex, metricsStep_parsed resp r hr]

theorem C6_success_witness :
    lambdaHandler (some "abc123") (some "test-bucket") (some "key") (Except.error ())
        (Except.ok (dumps srcSample)) (Except.ok respWithUsage) true "111122223333" =
      (Except.ok ⟨200, "abc123", "abc123" ++ "/extracted.json"⟩, some "key",
       [Op.s3Get "test-bucket" ("abc123" ++ "/source.json") "111122223333", Op.modelCall,
        Op.s3Put "test-bucket" ("abc123" ++ "/extracted.json") "111122223333"
          (dumps (extractOutput respWithUsage)) "application/json"]) :=
  (C6_success "abc123" "test-bucket" "111122223333" (dumps srcSample) (some "key")
    (Except.error ()) srcSample respWithUsage resultSample "key" (by decide) (by decide)
    (by rfl) (loads_dumps srcSample) (by rfl) rfl).trans (by rfl)

/-- C1, amended: whenever the handler raises the configuration error, no
object-storage read, no object-storage write and no model call has been
issued — the only operation the invocation may already have performed is the
parameter-store fetch of `get_api_key()`, which runs before validation (the
identity lookup runs once at module initialization, before any invocation). -/
theorem C1_amended (videoId bucket cache : Option String) (ssm : Except Unit String)
    (s3Body : Except Unit String) (transport : Except Unit ModelResponse) (putOk : Bool)
    (acct : String) (e1 e2 : Option String)
    (h : (lambdaHandler videoId bucket cache ssm s3Body transport putOk acct).1
          = Except.error (HandlerError.configError e1 e2)) :
    ∀ op ∈ (lambdaHandler videoId bucket cache ssm s3Body transport putOk acct).2.2,
      op = Op.ssmFetch := by
  have hops := getApiKeyStep_ops cache ssm
  rcases hstep : getApiKeyStep cache ssm with ⟨kr, c2, ops0⟩
  rw [hstep] at hops
  simp only at hops
  cases kr with
  | error e => simp [lambdaHandler, hstep] at h
  | ok apiKey =>
    by_cases hcond : (!pyTruthyOptStr videoId || !pyTruthyOptStr bucket) = true
    · simp [lambdaHandler, hstep, hcond] at h ⊢
      rcases hops with h0 | h0 <;> simp [h0]
    · rcases s3Body with e | body
      · simp [lambdaHandler, hstep, hcond] at h
      · rcases hlb : loads body with _ | src
        · simp [lambdaHandler, hstep, hcond, hlb] at h
        · rcases hex : extract src transport with ⟨er, exOps⟩
          rcases er with ee | output
          · rcases ee <;> simp [lambdaHandler, hstep, hcond, hlb, hex] at h
          · rcases hms : metricsStep output with e | u
            · simp [lambdaHandler, hstep, hcond, hlb, hex, hms] at h
            · rcases putOk <;> simp [lambdaHandler, hstep, hcond, hlb, hex, hms] at h

theorem C1_amended_witness :
    Op.ssmFetch ∈ (lambdaHandler none (some "b") none (Except.ok "k") (Except.ok "")
        (Except.ok respBlocked) true "a").2.2 ∧
    Op.ssmFetch = Op.ssmFetch :=
  ⟨by decide,
   C1_amended none (some "b") none (Except.ok "k") (Except.ok "") (Except.ok respBlocked)
     true "a" none (some "b") (by rfl) Op.ssmFetch (by decide)⟩

/-- C10, counterexample: a missing `video_id` does NOT always produce the
configuration error — on a cold cache with a failing parameter store, the
credential fetch (which the handler runs first) fails and the invocation
raises the credential error instead. -/
theorem C10_counterexample :
    (lambdaHandler none (some "b") none (Except.error ()) (Except.ok "")
        (Except.ok respBlocked) true "a").1 = Except.error HandlerError.credentialError ∧
    ¬ (lambdaHandler none (some "b") none (Except.error ()) (Except.ok "")
        (Except.ok respBlocked) true "a").1
        = Except.error (HandlerError.configError none (some "b")) := by
  constructor
  · rfl
  · intro hcontra
    rw [show (lambdaHandler none (some "b") none (Except.error ()) (Except.ok "")
        (Except.ok respBlocked) true "a").1
        = Except.error HandlerError.credentialError from rfl] at hcontra
    exact HandlerError.noConfusion (Except.error.inj hcontra)

/-- C10, amended: provided the credential step succeeds (it runs before
validation and its failure takes precedence), the handler raises the
configuration error exactly when `video_id` is missing or the empty string,
or the bucket name is missing or the empty string — an empty string is
treated the same as an absent value, and a non-empty pair never produces the
configuration error. -/
theorem C10_amended (videoId bucket cache : Option String) (ssm : Except Unit String)
    (s3Body : Except Unit String) (transport : Except Unit ModelResponse) (putOk : Bool)
    (acct : String) (apiKey : String)
    (hkey : (getApiKeyStep cache ssm).1 = Except.ok apiKey) :
    (lambdaHandler videoId bucket cache ssm s3Body transport putOk acct).1
        = Except.error (HandlerError.configError videoId bucket)
      ↔ (videoId = none ∨ videoId = some "" ∨ bucket = none ∨ bucket = some "") := by
  have hiff : (!pyTruthyOptStr videoId || !pyTruthyOptStr bucket) = true
      ↔ (videoId = none ∨ videoId = some "" ∨ bucket = none ∨ bucket = some "") := by
    rcases videoId with _ | v <;> rcases bucket with _ | b <;>
      simp [pyTruthyOptStr]
  rcases hstep : getApiKeyStep cache ssm with ⟨kr, c2, ops0⟩
  rw [hstep] at hkey
  simp only at hkey
  subst hkey
  by_cases hcond : (!pyTruthyOptStr videoId || !pyTruthyOptStr bucket) = true
  · constructor
    · intro _
      exact hiff.mp hcond
    · intro _
      simp [lambdaHandler, hstep, hcond]
  · constructor
    · intro hres
      exfalso
      rcases s3Body with e | body
      · simp [lambdaHandler, hstep, hcond] at hres
      · rcases hlb : loads body with _ | src
        · simp [lambdaHandler, hstep, hcond, hlb] at hres
        · rcases hex : extract src transport with ⟨er, exOps⟩
          rcases er with ee | output
          · rcases ee <;> simp [lambdaHandler, hstep, hcond, hlb, hex] at hres
          · rcases hms : metricsStep output with e | u
            · simp [lambdaHandler, hstep, hcond, hlb, hex, hms] at hres
            · rcases putOk <;> simp [lambdaHandler, hstep, hcond, hlb, hex, hms] at hres
    · intro hmiss
      exact absurd (hiff.mpr hmiss) hcond

theorem C10_amended_witness :
    (lambdaHandler (some "") (some "b") (some "k") (Except.ok "k") (Except.ok "")
        (Except.ok respBlocked) true "a").1
      = Except.error (HandlerError.configError (some "") (some "b")) :=
  (C10_amended (some "") (some "b") (some "k") (Except.ok "k") (Except.ok "")
    (Except.ok respBlocked) true "a" "k" (by rfl)).mpr (Or.inr (Or.inl rfl))
